import Mathlib

/-!
Verification development for the nano-ui repository.

The reconciliation core under study is src/nanoui-v2.js: the builder
primitive h, the attribute comparator, the mixed-content classifier, the
event-binding store, the key index and the patchTree reconciler, together
with the render session wrapper. The mini variant src/nanoui-mini-v2.js and
the standalone builder public/h.js are embedded where the claims cite them.

The browser DOM is the external platform of the engine; it is modelled here
as a heap of nodes indexed by natural-number identifiers. Node identity
(reference equality in JavaScript) is identifier equality. The model keeps,
per node: kind (element tag or text), the attribute list in insertion order
with unique names (as the DOM NamedNodeMap guarantees), the childNodes list
(elements and text nodes), the currently subscribed event listeners, the
parent pointer, and the unreflected form state (an input's or textarea's
dirty value, an input's checkedness, an option's selectedness) as stored
fields; the disabled accessor is a reflected content attribute, and a
select's value and selectedIndex are derived from its options, as in the
DOM (see setDomProp). Attribute values
are stored already string-coerced, as setAttribute coerces them. All
builders in this repository pass lowercase tag literals, so comparing
stored tags coincides with the DOM's uppercased tagName comparison.
-/

/-- Property values passed to the builder h: strings, booleans, numbers and
function references used as event handlers (identified by a numeral). -/
inductive PropVal where
  | str (s : String)
  | bool (b : Bool)
  | num (n : Int)
  | handler (id : Nat)
deriving DecidableEq, Repr

/-- JavaScript String() coercion for the values that occur as builder
property values. -/
def PropVal.strOf : PropVal → String
  | .str s => s
  | .bool true => "true"
  | .bool false => "false"
  | .num n => toString n
  | .handler id => toString id

/-- JavaScript Boolean() coercion for builder property values. -/
def PropVal.toBool : PropVal → Bool
  | .str s => s ≠ ""
  | .bool b => b
  | .num n => n ≠ 0
  | .handler _ => true

/-- The unreflected form state a platform node stores outside its attribute
set: the dirty value of an input or textarea, the checkedness of an input,
the selectedness of an option. The other form-relevant accessors are not
stored here: disabled is a reflected content attribute, and a select's
value and selectedIndex are derived from its options (see setDomProp). -/
structure FormProps where
  value : String := ""
  checked : Bool := false
  selected : Bool := false
deriving DecidableEq, Repr

/-- Node kind: an element with a tag, or a text node. -/
inductive NKind where
  | element (tag : String)
  | textNode
deriving DecidableEq, Repr

/-- One platform node: kind, insertion-ordered attributes, childNodes (ids),
text content (for text nodes), attached event listeners as (event type,
handler) pairs in subscription order, parent pointer, form properties. -/
structure NodeData where
  kind : NKind
  attrs : List (String × String) := []
  childNodes : List Nat := []
  content : String := ""
  listeners : List (String × Nat) := []
  parent : Option Nat := none
  props : FormProps := {}
deriving DecidableEq, Repr

/-- Whole mutable state threaded through the embedding: the node heap, the
allocation counter, the module-level eventStore WeakMap of nanoui-v2.js
(element id to its recorded event map), and the render-session state of
nanoui-v2.js render: the persistent elementRefs Map (key to element id) and
the per-invocation usedKeys Set. -/
structure St where
  nodes : List (Nat × NodeData) := []
  nextId : Nat := 0
  eventStore : List (Nat × List (String × Nat)) := []
  elementRefs : List (String × Nat) := []
  usedKeys : List String := []
deriving DecidableEq, Repr

/-- Assoc-list lookup by key. -/
def lookupA {α : Type} [BEq α] {β : Type} : List (α × β) → α → Option β
  | [], _ => none
  | (k, v) :: rest, key => if k == key then some v else lookupA rest key

/-- Assoc-list update in Map.set style: replace in place when the key is
present (preserving insertion order), append otherwise. -/
def setA {α : Type} [BEq α] {β : Type} : List (α × β) → α → β → List (α × β)
  | [], key, v => [(key, v)]
  | (k, w) :: rest, key, v =>
      if k == key then (k, v) :: rest else (k, w) :: setA rest key v

/-- Look a node up in the heap. -/
def St.node (st : St) (id : Nat) : Option NodeData :=
  lookupA st.nodes id

/-- Replace one node's data in the heap. -/
def St.setNode (st : St) (id : Nat) (d : NodeData) : St :=
  { st with nodes := setA st.nodes id d }

/-- Update one node's data through a function; no-op on a dangling id. -/
def St.updNode (st : St) (id : Nat) (f : NodeData → NodeData) : St :=
  match st.node id with
  | none => st
  | some d => st.setNode id (f d)

/-- document.createElement: allocate a fresh element node. -/
def createElement (st : St) (tag : String) : St × Nat :=
  (⟨setA st.nodes st.nextId { kind := .element tag },
    st.nextId + 1, st.eventStore, st.elementRefs, st.usedKeys⟩, st.nextId)

/-- document.createTextNode: allocate a fresh text node. -/
def createTextNode (st : St) (s : String) : St × Nat :=
  (⟨setA st.nodes st.nextId { kind := .textNode, content := s },
    st.nextId + 1, st.eventStore, st.elementRefs, st.usedKeys⟩, st.nextId)

/-- Is the node an element node. -/
def St.isElem (st : St) (id : Nat) : Bool :=
  match st.node id with
  | some d => match d.kind with | .element _ => true | .textNode => false
  | none => false

/-- Is the node a text node. -/
def St.isText (st : St) (id : Nat) : Bool :=
  match st.node id with
  | some d => match d.kind with | .textNode => true | .element _ => false
  | none => false

/-- tagName of an element; empty for non-elements (never consulted there).
The HTML DOM reports tagName uppercased; since every builder in this
repository passes lowercase tag literals, comparing the stored tags is
equivalent and the case normalization is omitted from the model. -/
def tagNameOf (st : St) (id : Nat) : String :=
  match st.node id with
  | some d => match d.kind with | .element t => t | .textNode => ""
  | none => ""

/-- getAttribute: the attribute value, or none standing for the null that
the DOM returns for a missing attribute. -/
def getAttribute (st : St) (id : Nat) (name : String) : Option String :=
  match st.node id with
  | some d => lookupA d.attrs name
  | none => none

/-- setAttribute: replace the value in place if the name is present, append
otherwise; names therefore stay unique and in first-insertion order. -/
def setAttribute (st : St) (id : Nat) (name value : String) : St :=
  st.updNode id (fun d => { d with attrs := setA d.attrs name value })

/-- addEventListener: appends the (type, handler) pair unless the identical
pair is already subscribed, which the DOM treats as a no-op. -/
def addEventListener (st : St) (id : Nat) (ev : String) (handler : Nat) : St :=
  st.updNode id (fun d =>
    if (ev, handler) ∈ d.listeners then d
    else { d with listeners := d.listeners ++ [(ev, handler)] })

/-- removeEventListener: removes the first matching (type, handler) pair,
a no-op when it is not subscribed. -/
def removeEventListener (st : St) (id : Nat) (ev : String) (handler : Nat) : St :=
  st.updNode id (fun d =>
    { d with listeners := d.listeners.eraseP (fun p => p == (ev, handler)) })

/-- Dispatching an event on a node invokes the handlers subscribed for that
event type, in subscription order. This is the platform's delivery model;
the engine only ever observes it through subscribe and unsubscribe. -/
def dispatchEvent (st : St) (id : Nat) (ev : String) : List Nat :=
  match st.node id with
  | some d => (d.listeners.filter (fun p => p.1 == ev)).map (fun p => p.2)
  | none => []

/-- Element children of a node (the DOM .children collection: childNodes
restricted to element nodes). -/
def childrenElems (st : St) (id : Nat) : List Nat :=
  match st.node id with
  | some d => d.childNodes.filter (fun c => st.isElem c)
  | none => []

/-- Detach a node from its current parent, if any: remove it from that
parent's childNodes and clear its parent pointer. -/
def detach (st : St) (id : Nat) : St :=
  match st.node id with
  | none => st
  | some d =>
    match d.parent with
    | none => st
    | some p =>
      let st1 := st.updNode p (fun pd =>
        { pd with childNodes := pd.childNodes.filter (fun c => c ≠ id) })
      st1.updNode id (fun nd => { nd with parent := none })

/-- Insert a list element before the first occurrence of the reference, or
append when the reference is absent. -/
def insertBeforeList (l : List Nat) (x : Nat) (ref : Nat) : List Nat :=
  match l with
  | [] => [x]
  | y :: rest => if y == ref then x :: y :: rest else y :: insertBeforeList rest x ref

/-- parent.appendChild(child): the DOM first detaches the child from its
present parent, then appends it. -/
def appendChild (st : St) (parent child : Nat) : St :=
  let st1 := detach st child
  let st2 := st1.updNode parent (fun d => { d with childNodes := d.childNodes ++ [child] })
  st2.updNode child (fun d => { d with parent := some parent })

/-- The entry following the first occurrence of a given entry in a list. -/
def nextAfter (child : Nat) : List Nat → Option Nat
  | [] => none
  | c :: rest => if c == child then rest.head? else nextAfter child rest

/-- The next sibling of a node inside a parent's childNodes list. -/
def nextSiblingOf (st : St) (parent child : Nat) : Option Nat :=
  match st.node parent with
  | none => none
  | some d => nextAfter child d.childNodes

/-- parent.insertBefore(child, ref): per the DOM pre-insert algorithm, when
ref is the child itself the reference becomes the child's next sibling (so
the call leaves the position unchanged); then the child is detached from
its present parent and inserted immediately before the reference, or
appended when the reference is absent. All call sites in the engine pass a
ref that is a current child of parent. -/
def insertBefore (st : St) (parent child ref : Nat) : St :=
  let refAdj : Option Nat :=
    if ref == child then nextSiblingOf st parent child else some ref
  let st1 := detach st child
  let st2 := st1.updNode parent (fun d =>
    { d with childNodes :=
        match refAdj with
        | some r => insertBeforeList d.childNodes child r
        | none => d.childNodes ++ [child] })
  st2.updNode child (fun d => { d with parent := some parent })

/-- child.remove(): detach from the parent, if attached. -/
def removeNode (st : St) (id : Nat) : St :=
  detach st id

/-- textContent getter as used by the engine: it is only read on nodes whose
element-children list is empty, where it is the concatenation of the text
node children's contents. -/
def textContentOf (st : St) (id : Nat) : String :=
  match st.node id with
  | some d =>
      String.join ((d.childNodes.filter (fun c => st.isText c)).map (fun c =>
        match st.node c with | some cd => cd.content | none => ""))
  | none => ""

/-- textContent setter: the DOM removes every existing child and, for a
non-empty string, inserts a single fresh text node holding it. -/
def setTextContent (st : St) (id : Nat) (s : String) : St :=
  let st1 := (st.node id).elim st (fun d =>
    d.childNodes.foldl (fun acc c => acc.updNode c (fun cd => { cd with parent := none })) st)
  if s == "" then
    st1.updNode id (fun d => { d with childNodes := [] })
  else
    let (st2, t) := createTextNode st1 s
    st2.updNode id (fun d => { d with childNodes := [t] })

/-!
## The builder primitive h

src/nanoui-v2.js builds real platform nodes eagerly: a description node is
itself a platform element. Children passed to h are JavaScript values:
already-built nodes, arbitrarily nested arrays, null, undefined, booleans,
strings, numbers.
-/

/-- String.prototype.startsWith applied to the event prefix: does the
property key begin with the two characters of the reserved prefix. -/
def startsWithOn (s : String) : Bool :=
  match s.data with
  | 'o' :: 'n' :: _ => true
  | _ => false

/-- ASCII lowercasing of one character, the effect of toLowerCase on the
event-type names this engine derives from property keys (all ASCII). -/
def lowerChar (c : Char) : Char :=
  if c == 'A' then 'a' else if c == 'B' then 'b' else if c == 'C' then 'c'
  else if c == 'D' then 'd' else if c == 'E' then 'e' else if c == 'F' then 'f'
  else if c == 'G' then 'g' else if c == 'H' then 'h' else if c == 'I' then 'i'
  else if c == 'J' then 'j' else if c == 'K' then 'k' else if c == 'L' then 'l'
  else if c == 'M' then 'm' else if c == 'N' then 'n' else if c == 'O' then 'o'
  else if c == 'P' then 'p' else if c == 'Q' then 'q' else if c == 'R' then 'r'
  else if c == 'S' then 's' else if c == 'T' then 't' else if c == 'U' then 'u'
  else if c == 'V' then 'v' else if c == 'W' then 'w' else if c == 'X' then 'x'
  else if c == 'Y' then 'y' else if c == 'Z' then 'z' else c

/-- key.slice(2).toLowerCase(): the event type derived from an on-prefixed
property key. -/
def eventNameOf (key : String) : String :=
  String.mk ((key.data.drop 2).map lowerChar)

/-- A child argument of the builder h. -/
inductive Child where
  | node (id : Nat)
  | arr (cs : List Child)
  | nullV
  | undef
  | boolV (b : Bool)
  | str (s : String)
  | num (n : Int)

/-- JavaScript String() coercion of a non-node child leaf. -/
def Child.strOf : Child → String
  | .node _ => ""
  | .arr _ => ""
  | .nullV => "null"
  | .undef => "undefined"
  | .boolV true => "true"
  | .boolV false => "false"
  | .str s => s
  | .num n => toString n

/-- Is the child an array. -/
def Child.isArr : Child → Bool
  | .arr _ => true
  | _ => false

mutual

/-- Flatten one child: an array contributes its recursively flattened
entries, any other child contributes itself. -/
def flattenChild : Child → List Child
  | .arr cs => jsFlatten cs
  | c => [c]

/-- Array.prototype.flat(Infinity): flatten nested arrays to unbounded
depth, preserving left-to-right order. -/
def jsFlatten : List Child → List Child
  | [] => []
  | c :: rest => flattenChild c ++ jsFlatten rest

end

/-- Platform model: the property names the DOM exposes on the elements this
development exercises, for the check (key in element). A textarea has no
checked IDL attribute, so checked is listed for input only. Keys not listed
fall through to setAttribute, as the data-* and class keys used here do. -/
def isElemProp (tag key : String) : Bool :=
  (tag == "input" && (key == "value" || key == "checked" || key == "disabled"))
  || (tag == "textarea" && (key == "value" || key == "disabled"))
  || (tag == "select" &&
    (key == "value" || key == "selectedIndex" || key == "disabled"))
  || (tag == "option" &&
    (key == "value" || key == "selected" || key == "disabled"))
  || (tag == "button" && key == "disabled")

/-- JavaScript Number()-style coercion for the selectedIndex property; only
numeric values occur in this development. -/
def PropVal.toInt : PropVal → Int
  | .num n => n
  | .bool b => if b then 1 else 0
  | .str _ => 0
  | .handler _ => 0

/-- The raw (lowercase) tag of an element node. -/
def tagOf (st : St) (id : Nat) : String :=
  match st.node id with
  | some d => match d.kind with | .element t => t | .textNode => ""
  | none => ""

/-- The unreflected form state of a node. -/
def propsOf (st : St) (id : Nat) : FormProps :=
  match st.node id with
  | some d => d.props
  | none => {}

/-- Update the unreflected form state of a node. -/
def updProps (st : St) (id : Nat) (f : FormProps → FormProps) : St :=
  st.updNode id (fun d => { d with props := f d.props })

/-- removeAttribute: drop the named attribute when present. -/
def removeAttribute (st : St) (id : Nat) (name : String) : St :=
  st.updNode id (fun d =>
    { d with attrs := d.attrs.filter (fun nv => nv.1 != name) })

/-- A select's list of options, modelled as its option element children.
The DOM also collects options nested in optgroup children; no optgroup
occurs in this development. -/
def optionChildren (st : St) (id : Nat) : List Nat :=
  (childrenElems st id).filter (fun c => tagOf st c == "option")

/-- option.value: the value content attribute when present (option.value is
a reflected accessor), else the option's text. The DOM additionally strips
and collapses whitespace in the text; no option with text occurs in this
development. -/
def optionValueOf (st : St) (o : Nat) : String :=
  match getAttribute st o "value" with
  | some v => v
  | none => textContentOf st o

/-- select.value getter: the value of the first option with selectedness
set, or the empty string when none is selected — in particular always empty
on a select without options. -/
def selectValueOf (st : St) (id : Nat) : String :=
  match (optionChildren st id).find? (fun o => (propsOf st o).selected) with
  | some o => optionValueOf st o
  | none => ""

/-- select.selectedIndex getter: the index of the first option with
selectedness set, or -1. -/
def selectSelectedIndexOf (st : St) (id : Nat) : Int :=
  match (optionChildren st id).findIdx? (fun o => (propsOf st o).selected) with
  | some i => (i : Int)
  | none => -1

/-- The value accessor: the stored dirty value for input and textarea, the
selected option's value for select, the reflected attribute or text for
option. -/
def getValueProp (st : St) (id : Nat) : String :=
  let t := tagOf st id
  if t == "select" then selectValueOf st id
  else if t == "option" then optionValueOf st id
  else (propsOf st id).value

/-- The selectedIndex accessor of a select. -/
def getSelectedIndexProp (st : St) (id : Nat) : Int :=
  selectSelectedIndexOf st id

/-- The disabled accessor is a reflected boolean attribute on every form
control: its getter reads the presence of the disabled content attribute. -/
def getDisabledProp (st : St) (id : Nat) : Bool :=
  (getAttribute st id "disabled").isSome

/-- element.disabled = b, a reflected write: set the disabled content
attribute to the empty string, or remove it. -/
def setDisabledProp (st : St) (id : Nat) (b : Bool) : St :=
  if b then setAttribute st id "disabled" "" else removeAttribute st id "disabled"

/-- select.value = v: set the selectedness of every option to false, then
of the first option whose value equals v to true; with no matching option
(in particular on a select without options) nothing ends up selected. -/
def setSelectValue (st : St) (id : Nat) (v : String) : St :=
  let opts := optionChildren st id
  let st1 := opts.foldl
    (fun acc o => updProps acc o (fun p => { p with selected := false })) st
  match opts.find? (fun o => optionValueOf st o == v) with
  | some o => updProps st1 o (fun p => { p with selected := true })
  | none => st1

/-- select.selectedIndex = n: deselect every option, then select the option
at index n when one exists. -/
def setSelectIndex (st : St) (id : Nat) (n : Int) : St :=
  let opts := optionChildren st id
  let st1 := opts.foldl
    (fun acc o => updProps acc o (fun p => { p with selected := false })) st
  if n < 0 then st1
  else
    match opts[n.toNat]? with
    | some o => updProps st1 o (fun p => { p with selected := true })
    | none => st1

/-- element[key] = value for the live properties the platform model exposes
(isElemProp): checked and selected write the unreflected stored state;
disabled is a reflected boolean attribute; value is stored for input and
textarea, option-dependent for select, and reflected to the value content
attribute for option; selectedIndex selects among a select's options. The
DOM's default-selection (reset) rule for a non-multiple select — which
auto-selects the first non-disabled option — is omitted: no select with
option children occurs in this development, and on a select without options
these accessors are inert exactly as modelled. -/
def setDomProp (st : St) (id : Nat) (key : String) (v : PropVal) : St :=
  if key == "checked" then updProps st id (fun p => { p with checked := v.toBool })
  else if key == "selected" then updProps st id (fun p => { p with selected := v.toBool })
  else if key == "disabled" then setDisabledProp st id v.toBool
  else if key == "value" then
    let t := tagOf st id
    if t == "select" then setSelectValue st id v.strOf
    else if t == "option" then setAttribute st id "value" v.strOf
    else updProps st id (fun p => { p with value := v.strOf })
  else if key == "selectedIndex" then setSelectIndex st id v.toInt
  else st

/-- The appendChildren loop of the h in src/nanoui-v2.js, lines 30 to 41,
run on the flat(Infinity) result: a Node is appended, any other leaf —
null and booleans included — is coerced to a text node of its String()
form. The Array.isArray branch of the source loop is dead, since
flat(Infinity) leaves no arrays (lemma jsFlatten_isFlat); the model skips
it. -/
def appendFlatV2 (st : St) (parent : Nat) : List Child → St
  | [] => st
  | Child.node id :: rest => appendFlatV2 (appendChild st parent id) parent rest
  | Child.arr _ :: rest => appendFlatV2 st parent rest
  | c :: rest =>
      let pr := createTextNode st (Child.strOf c)
      appendFlatV2 (appendChild pr.1 parent pr.2) parent rest

/-- appendChildren of src/nanoui-v2.js h: flatten, then the loop. -/
def appendChildrenV2 (st : St) (parent : Nat) (children : List Child) : St :=
  appendFlatV2 st parent (jsFlatten children)

/-- The appendChildren loop of public/h.js, lines 55 to 68, run on the
flat(Infinity) result: null, undefined and booleans are skipped, a Node is
appended, any other leaf is coerced to a text node. The array branch is
dead as above. -/
def appendFlatPub (st : St) (parent : Nat) : List Child → St
  | [] => st
  | Child.nullV :: rest => appendFlatPub st parent rest
  | Child.undef :: rest => appendFlatPub st parent rest
  | Child.boolV _ :: rest => appendFlatPub st parent rest
  | Child.node id :: rest => appendFlatPub (appendChild st parent id) parent rest
  | Child.arr _ :: rest => appendFlatPub st parent rest
  | c :: rest =>
      let pr := createTextNode st (Child.strOf c)
      appendFlatPub (appendChild pr.1 parent pr.2) parent rest

/-- appendChildren of public/h.js h: flatten, then the loop. -/
def appendChildrenPub (st : St) (parent : Nat) (children : List Child) : St :=
  appendFlatPub st parent (jsFlatten children)

/-- The h of src/nanoui-v2.js, lines 1 to 45. Creates the element; walks
the props in order: an on-prefixed key subscribes the handler, records it
in the events object and sets the synthetic attribute data-has-event; any
other key is set as a live property when the platform exposes one of that
name, else as a string-coerced attribute. Then the events object is stored
in the module-level eventStore, and the children are appended. A
non-function value under an on-prefixed key is ignored by the platform
subscription (WebIDL treats it as null) and never occurs here, so only
handler values reach the listener list and the events record. The source
calls a function-typed value of a non-event key to obtain the final value;
no such value occurs in this development, so the model coerces the given
value directly. This is one iteration of the props loop of that h, lines 6
to 24, carrying the state and the events object being built; hV2 below
folds it and finishes. -/
def hPropStep (tag : String) (el : Nat) (acc : St × List (String × Nat))
    (kv : String × PropVal) : St × List (String × Nat) :=
  if startsWithOn kv.1 then
    let eventName := eventNameOf kv.1
    let acc2 := match kv.2 with
      | PropVal.handler hid =>
          (addEventListener acc.1 el eventName hid, setA acc.2 eventName hid)
      | _ => acc
    (setAttribute acc2.1 el "data-has-event" "true", acc2.2)
  else if isElemProp tag kv.1 then
    (setDomProp acc.1 el kv.1 kv.2, acc.2)
  else
    (setAttribute acc.1 el kv.1 kv.2.strOf, acc.2)

/-- The h of src/nanoui-v2.js, lines 1 to 45: create the element, fold the
props loop over the properties in order, store the finished events object
in the module-level eventStore, then append the children. -/
def hV2 (st : St) (tag : String) (props : List (String × PropVal))
    (children : List Child) : St × Nat :=
  let pr := createElement st tag
  let el := pr.2
  let folded := props.foldl (hPropStep tag el) (pr.1, [])
  let st2 := { folded.1 with eventStore := setA folded.1.eventStore el folded.2 }
  (appendChildrenV2 st2 el children, el)

/-!
## The reconciliation engine of src/nanoui-v2.js
-/

/-- The attrs list of a node (its NamedNodeMap, in insertion order). -/
def attrsOf (st : St) (id : Nat) : List (String × String) :=
  match st.node id with
  | some d => d.attrs
  | none => []

/-- The childNodes list of a node. -/
def childNodesOf (st : St) (id : Nat) : List Nat :=
  match st.node id with
  | some d => d.childNodes
  | none => []

/-- The own text content of a text node. -/
def contentOf (st : St) (id : Nat) : String :=
  match st.node id with
  | some d => d.content
  | none => ""

/-- attributesEqual of src/nanoui-v2.js, lines 50 to 62: the attribute
counts must agree, and every attribute of the old element must be present
on the new element with the same value; getAttribute yields null (none) for
a missing name, which never equals a stored string value. -/
def attributesEqual (st : St) (oldEl newEl : Nat) : Bool :=
  ((attrsOf st oldEl).length == (attrsOf st newEl).length) &&
  (attrsOf st oldEl).all (fun nv => getAttribute st newEl nv.1 == some nv.2)

/-- getKey of src/nanoui-v2.js, line 67: the data-key attribute, null
(none) when absent. -/
def getKey (st : St) (el : Nat) : Option String :=
  getAttribute st el "data-key"

/-- JavaScript truthiness of a getKey result: null and the empty string are
falsy; a truthy key is returned. -/
def truthyKey : Option String → Option String
  | some s => if s == "" then none else some s
  | none => none

/-- hasMixedContent of src/nanoui-v2.js, lines 129 to 137: one walk over
childNodes sets hasElement on any element child and hasText on any text
child with non-empty content; the result is their conjunction. -/
def hasMixedContent (st : St) (el : Nat) : Bool :=
  ((childNodesOf st el).any (fun c => st.isText c && contentOf st c != "")) &&
  ((childNodesOf st el).any (fun c => st.isElem c))

/-- shouldRecreate of src/nanoui-v2.js, lines 140 to 147, with the option
candidate. The source tests, in order: mixed content of the new element;
mixed content of a present candidate; candidate absence; tagName mismatch;
attribute inequality. Testing absence before the short-circuited mixed test
is equivalent. -/
def shouldRecreate (st : St) (existingRef : Option Nat) (newEl : Nat) : Bool :=
  if hasMixedContent st newEl then true
  else match existingRef with
  | none => true
  | some ex =>
    if hasMixedContent st ex then true
    else if tagNameOf st ex != tagNameOf st newEl then true
    else if !attributesEqual st ex newEl then true
    else false

/-- findReusableNoKey of src/nanoui-v2.js, lines 88 to 95: the positional
candidate is the pre-pass snapshot entry at the same index, rejected when
absent, keyed, of another tag, or of unequal attributes. -/
def findReusableNoKey (st : St) (existingChildren : List Nat)
    (newEl index : Nat) : Option Nat :=
  match existingChildren[index]? with
  | none => none
  | some cand =>
    if (truthyKey (getKey st cand)).isSome then none
    else if tagNameOf st cand != tagNameOf st newEl then none
    else if !attributesEqual st cand newEl then none
    else some cand

/-- syncFormProps of src/nanoui-v2.js, lines 98 to 111. The instanceof
dispatch on the existing element is modelled by its tag, and every read and
write goes through the platform accessors (setDomProp and the getters), so
a disabled write reflects into the attribute set and a select's value and
selectedIndex behave option-dependently. Each property is written only when
it differs, exactly as in the source; the textarea checked comparison of
the source reads undefined on both sides and never writes, which the model
matches since both stored checked fields stay at their default. -/
def syncFormProps (st : St) (ex newEl : Nat) : St :=
  let t := tagOf st ex
  if t == "input" || t == "textarea" then
    let st1 := if getValueProp st ex != getValueProp st newEl then
      setDomProp st ex "value" (PropVal.str (getValueProp st newEl)) else st
    let st2 := if (propsOf st1 ex).checked != (propsOf st1 newEl).checked then
      setDomProp st1 ex "checked" (PropVal.bool (propsOf st1 newEl).checked) else st1
    if getDisabledProp st2 ex != getDisabledProp st2 newEl then
      setDomProp st2 ex "disabled" (PropVal.bool (getDisabledProp st2 newEl)) else st2
  else if t == "select" then
    let st1 := if getValueProp st ex != getValueProp st newEl then
      setDomProp st ex "value" (PropVal.str (getValueProp st newEl)) else st
    let st2 := if getSelectedIndexProp st1 ex != getSelectedIndexProp st1 newEl then
      setDomProp st1 ex "selectedIndex"
        (PropVal.num (getSelectedIndexProp st1 newEl)) else st1
    if getDisabledProp st2 ex != getDisabledProp st2 newEl then
      setDomProp st2 ex "disabled" (PropVal.bool (getDisabledProp st2 newEl)) else st2
  else if t == "option" then
    let st1 := if (propsOf st ex).selected != (propsOf st newEl).selected then
      setDomProp st ex "selected" (PropVal.bool (propsOf st newEl).selected) else st
    if getDisabledProp st1 ex != getDisabledProp st1 newEl then
      setDomProp st1 ex "disabled" (PropVal.bool (getDisabledProp st1 newEl)) else st1
  else st

/-- replaceEvents of src/nanoui-v2.js, lines 114 to 126: read both event
records from the store (an absent entry reads as the empty record), detach
every handler of the old record from the existing element, attach every
handler of the new record, then store the new record for the existing
element. -/
def replaceEvents (st : St) (ex newEl : Nat) : St :=
  let oldEvents := (lookupA st.eventStore ex).getD []
  let newEvents := (lookupA st.eventStore newEl).getD []
  let st1 := oldEvents.foldl (fun acc p => removeEventListener acc ex p.1 p.2) st
  let st2 := newEvents.foldl (fun acc p => addEventListener acc ex p.1 p.2) st1
  { st2 with eventStore := setA st2.eventStore ex newEvents }

/-- Set insertion: append unless present, as Set.add and Map key order. -/
def addSet {α : Type} [DecidableEq α] (l : List α) (x : α) : List α :=
  if x ∈ l then l else l ++ [x]

/-- insertNewElement of src/nanoui-v2.js, lines 150 to 170: remove the old
candidate from its parent when it has one, insert the new element before
the current element child at the index (or append), then record the
reference: a truthy key goes to elementRefs and usedKeys, a keyless element
to the per-call retainedNoKey set, which is returned alongside the state. -/
def insertNewElement (st : St) (parent newEl index : Nat) (old : Option Nat)
    (retained : List Nat) : St × List Nat :=
  let st1 := match old with
    | some o => match (st.node o).bind NodeData.parent with
        | some _ => detach st o
        | none => st
    | none => st
  let st2 := match (childrenElems st1 parent)[index]? with
    | some target => insertBefore st1 parent newEl target
    | none => appendChild st1 parent newEl
  match truthyKey (getKey st2 newEl) with
  | some k =>
      let st3 := { st2 with elementRefs := setA st2.elementRefs k newEl }
      ({ st3 with usedKeys := addSet st3.usedKeys k }, retained)
  | none => (st2, addSet retained newEl)

/-- ensurePosition of src/nanoui-v2.js, lines 173 to 182: when the element
is not the element child of the parent at the index (or has another
parent), insert it before that child, or append when there is none. -/
def ensurePosition (st : St) (parent el index : Nat) : St :=
  let target := (childrenElems st parent)[index]?
  if (st.node el).bind NodeData.parent != some parent || target != some el then
    match target with
    | some t => insertBefore st parent el t
    | none => appendChild st parent el
  else st

/-- A JavaScript value at a position of the new-children list handed to
patchTree: a platform node reference, null, a string, or a (possibly
nested) array. The engine only ever reads such a value through getKey,
which requires the getAttribute method that only elements have. -/
inductive DVal where
  | dom (id : Nat)
  | nullV
  | strV (s : String)
  | arrV (vs : List DVal)

/-- The per-call accumulator of one patchTree invocation: the mutated
state, the currentKeys set, the retainedNoKey set, and the
childRecurseQueue of (parentEl, newChild) pairs, where parentEl is the
possibly-undefined parent.children lookup recorded at push time. -/
def StepAcc : Type := St × List String × List Nat × List (Option Nat × Nat)

/-- The body shared by both branches of the per-child step after the
candidate is resolved: the reuse-vs-recreate decision of patchTree, lines
199 to 233. On recreate the new element is inserted and the recursion pair
is queued. On reuse the candidate is repositioned, recorded when keyless,
form-synced and event-rebound, and then either its text content is updated
in place (both sides free of element children) or the recursion pair is
queued. The reuse branch is unreachable with an absent candidate, since
shouldRecreate is constantly true there (lemma shouldRecreate_none). -/
def resolveStep (st : St) (parent index newEl : Nat) (existingRef : Option Nat)
    (keyAbsent : Bool) (cur : List String) (ret : List Nat)
    (queue : List (Option Nat × Nat)) : Except String StepAcc :=
  if shouldRecreate st existingRef newEl then
    let pr := insertNewElement st parent newEl index existingRef ret
    Except.ok (pr.1, cur, pr.2, queue ++ [((childrenElems pr.1 parent)[index]?, newEl)])
  else
    match existingRef with
    | none => Except.error "unreachable"
    | some ex =>
      let st1 := ensurePosition st parent ex index
      let ret1 := if keyAbsent then addSet ret ex else ret
      let st2 := syncFormProps st1 ex newEl
      let st3 := replaceEvents st2 ex newEl
      if (childrenElems st3 ex).isEmpty && (childrenElems st3 newEl).isEmpty then
        if textContentOf st3 ex != textContentOf st3 newEl then
          Except.ok (setTextContent st3 ex (textContentOf st3 newEl), cur, ret1, queue)
        else
          Except.ok (st3, cur, ret1, queue)
      else
        Except.ok (st3, cur, ret1, queue ++ [(some ex, newEl)])

/-- One iteration of the newChildren.forEach loop of patchTree, lines 188
to 234. getKey on a null, string, array or text-node entry throws a
TypeError, which aborts the whole pass. For an element entry, a truthy key
goes to currentKeys and usedKeys and resolves through the elementRefs map,
a keyless entry resolves through the positional snapshot. -/
def processChild (st : St) (parent : Nat) (existingChildren : List Nat)
    (index : Nat) (v : DVal) (cur : List String) (ret : List Nat)
    (queue : List (Option Nat × Nat)) : Except String StepAcc :=
  match v with
  | DVal.dom id =>
    match st.node id with
    | some d =>
      (match d.kind with
       | NKind.element _ =>
         (match truthyKey (getKey st id) with
          | some k =>
            let cur1 := addSet cur k
            let stA := { st with usedKeys := addSet st.usedKeys k }
            resolveStep stA parent index id (lookupA stA.elementRefs k) false cur1 ret queue
          | none =>
            resolveStep st parent index id
              (findReusableNoKey st existingChildren id index) true cur ret queue)
       | NKind.textNode => Except.error "TypeError")
    | none => Except.error "TypeError"
  | _ => Except.error "TypeError"

/-- The newChildren.forEach loop, iterated over the list with its index. -/
def processLoop (parent : Nat) (existingChildren : List Nat) :
    St → Nat → List String → List Nat → List (Option Nat × Nat) →
    List DVal → Except String StepAcc
  | st, _, cur, ret, queue, [] => Except.ok (st, cur, ret, queue)
  | st, index, cur, ret, queue, v :: rest =>
    match processChild st parent existingChildren index v cur ret queue with
    | Except.ok (st1, cur1, ret1, q1) =>
        processLoop parent existingChildren st1 (index + 1) cur1 ret1 q1 rest
    | Except.error e => Except.error e

/-- The trailing cleanup of patchTree, lines 242 to 252: walk a fresh
snapshot of the parent's element children; remove a keyed child whose key
was not claimed this call, and a keyless child not retained this call. -/
def cleanupPass (st : St) (parent : Nat) (cur : List String) (ret : List Nat) : St :=
  (childrenElems st parent).foldl (fun acc child =>
    match truthyKey (getKey acc child) with
    | some k => if k ∈ cur then acc else removeNode acc child
    | none => if child ∈ ret then acc else removeNode acc child) st

/-- The source of one deferred patchTree invocation: the top-level call on
the builder result, or a queued recursion whose child list is read from the
description node at run time (Array.from(newChild.children)). -/
inductive JobSrc where
  | direct (l : List DVal)
  | fromNode (n : Nat)

/-- A pending piece of reconciliation work: a patchTree invocation (whose
parent may be the undefined result of a parent.children lookup), or the
cleanup of a parent with the currentKeys and retainedNoKey of its call. -/
inductive Job where
  | patch (parentEl : Option Nat) (src : JobSrc)
  | cleanup (parent : Nat) (cur : List String) (ret : List Nat)

/-- Read the new-children list of a job source in the current state. -/
def jobChildren (st : St) : JobSrc → List DVal
  | JobSrc.direct l => l
  | JobSrc.fromNode n => (childrenElems st n).map DVal.dom

/-- The recursive patchTree of src/nanoui-v2.js, lines 80 to 253, run as a
worklist that preserves the source's depth-first execution order exactly:
one patch job runs the forEach loop of one invocation, then prepends its
childRecurseQueue (as patch jobs) followed by its own cleanup job. A patch
job whose parent is undefined (a recorded parent.children miss) throws on
its first property access. Fuel only bounds the recursion depth; every run
in this development is given ample fuel. -/
def patchJobs : Nat → St → List Job → Except String St
  | 0, _, _ => Except.error "outOfFuel"
  | _ + 1, st, [] => Except.ok st
  | fuel + 1, st, Job.cleanup p cur ret :: rest =>
      patchJobs fuel (cleanupPass st p cur ret) rest
  | _ + 1, _, Job.patch none _ :: _ => Except.error "TypeError"
  | fuel + 1, st, Job.patch (some parent) src :: rest =>
    match processLoop parent (childrenElems st parent) st 0 [] [] []
        (jobChildren st src) with
    | Except.error e => Except.error e
    | Except.ok (st1, cur, ret, queue) =>
        patchJobs fuel st1
          ((queue.map (fun e => Job.patch e.1 (JobSrc.fromNode e.2))) ++
            Job.cleanup parent cur ret :: rest)

/-- patchTree applied at the top: one invocation on the container. -/
def patchTreeV2 (fuel : Nat) (st : St) (container : Nat)
    (newChildren : List DVal) : Except String St :=
  patchJobs fuel st [Job.patch (some container) (JobSrc.direct newChildren)]

/-- One invocation of the function returned by render(container,
createElements) in src/nanoui-v2.js, lines 75 to 263, applied to the value
the builder returned: a fresh usedKeys set, patchTree on the container with
the builder result as-is (no normalization), then deletion of every
elementRefs entry whose key was not used this pass. -/
def renderPassV2 (fuel : Nat) (st : St) (container : Nat)
    (newElements : List DVal) : Except String St :=
  let st0 := { st with usedKeys := [] }
  match patchTreeV2 fuel st0 container newElements with
  | Except.ok st1 =>
      Except.ok { st1 with
        elementRefs := st1.elementRefs.filter (fun kv => kv.1 ∈ st1.usedKeys) }
  | Except.error e => Except.error e

/-- The normalization step of the render invoker of
src/nanoui-mini-v2.js, line 167: an array result is flattened to unbounded
depth, any other result is wrapped in a singleton list. -/
def miniNormalize : Child → List Child
  | Child.arr l => jsFlatten l
  | v => [v]

/-!
## Spec-side predicates and basic lemmas
-/

/-- Extract the state of a pass that is known to have succeeded. -/
def exSt : Except String St → St
  | Except.ok st => st
  | Except.error _ => {}

/-- Written from the spec (4.2): a node has mixed content when it has at
least one non-empty text child and at least one element child
simultaneously. -/
def specMixedContent (st : St) (el : Nat) : Prop :=
  (∃ c ∈ childNodesOf st el, st.isText c = true ∧ contentOf st c ≠ "") ∧
  (∃ c ∈ childNodesOf st el, st.isElem c = true)

/-- Written from the spec (4.1): two attribute sets are exactly equal when
they agree as finite maps from names to values, i.e. every name carries the
same (possibly absent) value on both sides. With unique names this is the
same as: same count, same names, same values. -/
def specAttrsEqual (st : St) (a b : Nat) : Prop :=
  ∀ name, getAttribute st a name = getAttribute st b name

/-- A node's attribute names are distinct — the NamedNodeMap invariant,
which setAttribute preserves in the model. -/
def attrNamesNodup (st : St) (id : Nat) : Prop :=
  ((attrsOf st id).map Prod.fst).Nodup

theorem lookupA_eq_none_iff {α : Type} {β : Type} [BEq α] [LawfulBEq α]
    (xs : List (α × β)) (k : α) : lookupA xs k = none ↔ k ∉ xs.map Prod.fst := by
  induction xs with
  | nil => simp [lookupA]
  | cons hd tl ih =>
    obtain ⟨a, b⟩ := hd
    by_cases h : a = k
    · subst h
      simp [lookupA]
    · simp [lookupA, beq_iff_eq, h, ih, Ne.symm h]

theorem lookupA_mem {α : Type} {β : Type} [BEq α] [LawfulBEq α]
    {xs : List (α × β)} {k : α} {v : β} (h : lookupA xs k = some v) : (k, v) ∈ xs := by
  induction xs with
  | nil => simp [lookupA] at h
  | cons hd tl ih =>
    obtain ⟨a, b⟩ := hd
    by_cases hak : a = k
    · subst hak
      simp [lookupA] at h
      simp [h]
    · simp [lookupA, beq_iff_eq, hak] at h
      exact List.mem_cons_of_mem _ (ih h)

theorem mem_lookupA {α : Type} {β : Type} [BEq α] [LawfulBEq α]
    {xs : List (α × β)} {k : α} {v : β} (nd : (xs.map Prod.fst).Nodup)
    (h : (k, v) ∈ xs) : lookupA xs k = some v := by
  induction xs with
  | nil => simp at h
  | cons hd tl ih =>
    obtain ⟨a, b⟩ := hd
    rcases List.mem_cons.mp h with heq | htl
    · injection heq with h1 h2
      subst h1
      subst h2
      simp [lookupA]
    · have hk : k ∈ tl.map Prod.fst := List.mem_map.mpr ⟨(k, v), htl, rfl⟩
      have hak : a ≠ k := by
        rintro rfl
        exact (List.nodup_cons.mp nd).1 hk
      simp [lookupA, beq_iff_eq, hak]
      exact ih (List.nodup_cons.mp nd).2 htl

theorem lookupA_isSome_mem {α : Type} {β : Type} [BEq α] [LawfulBEq α]
    {xs : List (α × β)} {k : α} {v : β} (h : lookupA xs k = some v) :
    k ∈ xs.map Prod.fst :=
  List.mem_map.mpr ⟨(k, v), lookupA_mem h, rfl⟩

/-- Characterization of the comparator loop on raw attribute lists: with
distinct names on both sides, the length check plus the one-sided value
check amount exactly to equality of the two lists as finite maps. -/
theorem attrsList_eq_iff {xs ys : List (String × String)}
    (hx : (xs.map Prod.fst).Nodup) (hy : (ys.map Prod.fst).Nodup) :
    (((xs.length == ys.length) &&
      xs.all (fun nv => lookupA ys nv.1 == some nv.2)) = true) ↔
    ∀ n, lookupA xs n = lookupA ys n := by
  constructor
  · intro h
    rw [Bool.and_eq_true, List.all_eq_true] at h
    obtain ⟨hlen, hall⟩ := h
    have hlen' : xs.length = ys.length := eq_of_beq hlen
    have hall' : ∀ p ∈ xs, lookupA ys p.1 = some p.2 := by
      intro p hp
      exact eq_of_beq (hall p hp)
    intro n
    cases hxs : lookupA xs n with
    | some v => exact (hall' (n, v) (lookupA_mem hxs)).symm
    | none =>
      have hxn : n ∉ xs.map Prod.fst := (lookupA_eq_none_iff xs n).mp hxs
      cases hys : lookupA ys n with
      | none => rfl
      | some w =>
        have hsub : xs.map Prod.fst ⊆ ys.map Prod.fst := by
          intro m hm
          obtain ⟨p, hp, hpm⟩ := List.mem_map.mp hm
          exact hpm ▸ lookupA_isSome_mem (hall' p hp)
        have hperm : (xs.map Prod.fst).Perm (ys.map Prod.fst) :=
          (hx.subperm hsub).perm_of_length_le (by simp [hlen'])
        exact absurd (hperm.mem_iff.mpr (lookupA_isSome_mem hys)) hxn
  · intro h
    rw [Bool.and_eq_true]
    constructor
    · have hiff : ∀ m, m ∈ xs.map Prod.fst ↔ m ∈ ys.map Prod.fst := by
        intro m
        rw [← not_iff_not, ← lookupA_eq_none_iff xs m, ← lookupA_eq_none_iff ys m, h m]
      have hperm : (xs.map Prod.fst).Perm (ys.map Prod.fst) :=
        (List.perm_ext_iff_of_nodup hx hy).mpr hiff
      have := hperm.length_eq
      simp only [List.length_map] at this
      exact beq_iff_eq.mpr this
    · rw [List.all_eq_true]
      intro p hp
      have : lookupA xs p.1 = some p.2 := mem_lookupA hx hp
      rw [beq_iff_eq, ← h p.1]
      exact this

/-- getAttribute reads through the attrs list of the node. -/
theorem getAttribute_eq_lookup (st : St) (id : Nat) (name : String) :
    getAttribute st id name = lookupA (attrsOf st id) name := by
  unfold getAttribute attrsOf
  cases st.node id <;> rfl

/-- The comparator agrees with finite-map equality of the attribute sets,
given the NamedNodeMap uniqueness invariant. -/
theorem attributesEqual_iff (st : St) (a b : Nat)
    (ha : attrNamesNodup st a) (hb : attrNamesNodup st b) :
    attributesEqual st a b = true ↔ specAttrsEqual st a b := by
  unfold attributesEqual specAttrsEqual
  simp only [getAttribute_eq_lookup]
  exact attrsList_eq_iff ha hb

/-- The classifier agrees with the spec predicate for mixed content. -/
theorem hasMixedContent_iff (st : St) (el : Nat) :
    hasMixedContent st el = true ↔ specMixedContent st el := by
  unfold hasMixedContent specMixedContent
  simp [List.any_eq_true, Bool.and_eq_true, bne_iff_ne]

/-- shouldRecreate is constantly true on an absent candidate. -/
theorem shouldRecreate_none (st : St) (newEl : Nat) :
    shouldRecreate st none newEl = true := by
  unfold shouldRecreate
  split <;> rfl

/-- The reuse-vs-recreate decision with a present candidate, as a plain
disjunction of the four code-level tests. -/
theorem shouldRecreate_some_iff (st : St) (ex newEl : Nat) :
    shouldRecreate st (some ex) newEl = true ↔
      (hasMixedContent st newEl = true ∨ hasMixedContent st ex = true ∨
        tagNameOf st ex ≠ tagNameOf st newEl ∨
        attributesEqual st ex newEl = false) := by
  unfold shouldRecreate
  by_cases h1 : hasMixedContent st newEl = true <;>
    by_cases h2 : hasMixedContent st ex = true <;>
      by_cases h3 : tagNameOf st ex = tagNameOf st newEl <;>
        by_cases h4 : attributesEqual st ex newEl = true <;>
          simp [h1, h2, h3, h4, bne_iff_ne]

/-- C1. For a new description child with its resolved candidate, the
reconciler recreates exactly when no candidate exists, the tags differ,
either side has mixed content (a non-empty text child and an element child
simultaneously), or the attribute sets are not equal as finite maps;
otherwise the candidate is reused. shouldRecreate is the sole decision the
pass loop consults at patchTree line 199: a false result takes the reuse
path that keeps the candidate's identity. Hypotheses: the NamedNodeMap
uniqueness invariant on both attribute lists. -/
theorem claimC1_shouldRecreate_iff (st : St) (cand : Option Nat) (newEl : Nat)
    (hNew : attrNamesNodup st newEl)
    (hCand : ∀ ex, cand = some ex → attrNamesNodup st ex) :
    shouldRecreate st cand newEl = true ↔
      (cand = none ∨ specMixedContent st newEl ∨
        ∃ ex, cand = some ex ∧
          (specMixedContent st ex ∨ tagNameOf st ex ≠ tagNameOf st newEl ∨
            ¬ specAttrsEqual st ex newEl)) := by
  cases cand with
  | none => simp [shouldRecreate_none]
  | some ex =>
    rw [shouldRecreate_some_iff]
    have hM1 := hasMixedContent_iff st newEl
    have hM2 := hasMixedContent_iff st ex
    have hA := attributesEqual_iff st ex newEl (hCand ex rfl) hNew
    constructor
    · rintro (h | h | h | h)
      · exact Or.inr (Or.inl (hM1.mp h))
      · exact Or.inr (Or.inr ⟨ex, rfl, Or.inl (hM2.mp h)⟩)
      · exact Or.inr (Or.inr ⟨ex, rfl, Or.inr (Or.inl h)⟩)
      · refine Or.inr (Or.inr ⟨ex, rfl, Or.inr (Or.inr fun hspec => ?_)⟩)
        rw [hA.mpr hspec] at h
        exact Bool.noConfusion h
    · rintro (h | h | ⟨ex2, hex, h⟩)
      · exact absurd h (by simp)
      · exact Or.inl (hM1.mpr h)
      · injection hex with hex2
        subst hex2
        rcases h with h | h | h
        · exact Or.inr (Or.inl (hM2.mpr h))
        · exact Or.inr (Or.inr (Or.inl h))
        · refine Or.inr (Or.inr (Or.inr ?_))
          cases hb : attributesEqual st ex newEl with
          | true => exact absurd (hA.mp hb) h
          | false => rfl

/-- A concrete instance of C1: a keyless div description against a
candidate div whose class attribute differs is recreated; the hypotheses
hold by evaluation. -/
def c1Heap : St :=
  (hV2 (hV2 (createElement {} "div").1 "div" [("class", PropVal.str "x")] []).1
    "div" [("class", PropVal.str "y")] []).1

theorem claimC1_witness :
    shouldRecreate c1Heap (some 1) 2 = true ↔
      ((some 1 : Option Nat) = none ∨ specMixedContent c1Heap 2 ∨
        ∃ ex, (some 1 : Option Nat) = some ex ∧
          (specMixedContent c1Heap ex ∨ tagNameOf c1Heap ex ≠ tagNameOf c1Heap 2 ∨
            ¬ specAttrsEqual c1Heap ex 2)) :=
  claimC1_shouldRecreate_iff c1Heap (some 1) 2 (by unfold attrNamesNodup; decide)
    (by
      rintro ex hex
      injection hex with h
      subst h
      unfold attrNamesNodup
      decide)

/-- C3. The attribute comparator returns true exactly when the two
attribute sets are equal as finite maps from names to string values —
with unique names this is the same count, the same names and the same
string-coerced values, and a single differing or missing attribute in
either direction falsifies it. The comparator is a pure function of the
state, hence deterministic and free of side effects. Hypotheses: the
NamedNodeMap uniqueness invariant on both attribute lists. -/
theorem claimC3_attributesEqual_exact (st : St) (oldEl newEl : Nat)
    (h1 : attrNamesNodup st oldEl) (h2 : attrNamesNodup st newEl) :
    attributesEqual st oldEl newEl = true ↔ specAttrsEqual st oldEl newEl :=
  attributesEqual_iff st oldEl newEl h1 h2

/-- A concrete instance of C3: two div elements differing in one attribute
value; the comparator result coincides with finite-map equality. -/
def c3Heap : St :=
  (hV2 (hV2 (createElement {} "div").1 "div"
      [("class", PropVal.str "x"), ("id", PropVal.str "p")] []).1
    "div" [("class", PropVal.str "x"), ("id", PropVal.str "q")] []).1

theorem claimC3_witness :
    attributesEqual c3Heap 1 2 = true ↔ specAttrsEqual c3Heap 1 2 :=
  claimC3_attributesEqual_exact c3Heap 1 2 (by unfold attrNamesNodup; decide)
    (by unfold attrNamesNodup; decide)

/-- Extract the accumulator of a per-child step known to have succeeded. -/
def exAcc : Except String StepAcc → StepAcc
  | Except.ok a => a
  | Except.error _ => ({}, [], [], [])

/-!
## C2 scenario: the key index across passes

A container renders one keyed child (key a, class x, text hello); the next
pass renders two descriptions that both carry key a with identical tag and
attributes; a final pass renders the empty list.
-/

def c2Cont : St × Nat := createElement {} "div"

def c2Desc1 : St × Nat :=
  hV2 c2Cont.1 "div" [("data-key", PropVal.str "a"), ("class", PropVal.str "x")]
    [Child.str "hello"]

def c2St1 : St := exSt (renderPassV2 20 c2Desc1.1 0 [DVal.dom 1])

def c2Desc2 : St × Nat :=
  hV2 c2St1 "div" [("data-key", PropVal.str "a"), ("class", PropVal.str "x")]
    [Child.str "hello"]

def c2Desc3 : St × Nat :=
  hV2 c2Desc2.1 "div" [("data-key", PropVal.str "a"), ("class", PropVal.str "x")]
    [Child.str "hello"]

/-- The state at the start of the second pass, after the invoker has reset
usedKeys, before any child is processed. -/
def c2PassStart : St := { c2Desc3.1 with usedKeys := [] }

/-- The accumulator right after the pass has processed the first of the two
same-key descriptions — the moment the key has just been claimed. -/
def c2FirstStep : StepAcc :=
  exAcc (processChild c2PassStart 0 (childrenElems c2PassStart 0) 0
    (DVal.dom 3) [] [] [])

def c2St2 : St := exSt (renderPassV2 20 c2Desc3.1 0 [DVal.dom 3, DVal.dom 5])

def c2St3 : St := exSt (renderPassV2 20 c2St2 0 [])

/-- A second session whose single pass renders one keyed parent (key p)
holding one keyed child (key a): two nesting levels, one index. -/
def c2NestInner : St × Nat :=
  hV2 (createElement {} "div").1 "div" [("data-key", PropVal.str "a")] []

def c2NestOuter : St × Nat :=
  hV2 c2NestInner.1 "div" [("data-key", PropVal.str "p")] [Child.node 1]

def c2NestSt : St := exSt (renderPassV2 20 c2NestOuter.1 0 [DVal.dom 2])

/-- C2 counterexample. The claim says a matched key-index entry is removed
at the moment it is claimed, so that a key can be claimed by at most one
new description node per pass. In the code the index (elementRefs) is never
shrunk during a pass: immediately after the first description claims key a
(it is recorded in usedKeys and the live child 1 is reused), the index
still maps a to the same node, and the second same-key description of the
pass therefore resolves the very same live node — the pass ends with the
single child 1 where removal-on-claim would have forced the second
description to create a second, fresh child. Nor is the index per-parent
and rebuilt from the parent's current live children: after the nested-key
pass it holds, in the one session map, the container child's key p next to
the grandchild's key a, whose node 1 is not a current live child of the
container at all. -/
theorem claimC2_counterexample :
    c2FirstStep.1.usedKeys = ["a"] ∧
    childrenElems c2FirstStep.1 0 = [1] ∧
    lookupA c2FirstStep.1.elementRefs "a" = some 1 ∧
    childrenElems c2St2 0 = [1] ∧
    (c2NestSt.elementRefs = [("p", 2), ("a", 1)] ∧
      childrenElems c2NestSt 0 = [2] ∧ 1 ∉ childrenElems c2NestSt 0) := by decide

/-- C2 as amended. The key index of src/nanoui-v2.js is the session-level
elementRefs map, created once per render(container, builder) call: it
persists across passes (after the first pass it still holds key a), it is
not per-parent, and entries are not removed when matched — both same-key
descriptions of the second pass resolve the same live node 1 and the pass
ends with that one child and the entry intact. Only at the end of a pass
are entries whose key was not used deleted (rendering the empty list clears
the index) and keyed live children whose key was not claimed under their
parent detached (the container empties). The nested-key pass shows the
sharing across parents: the container child's key p and the grandchild's
key a end up side by side in the one session map. -/
theorem claimC2_session_index :
    c2St1.elementRefs = [("a", 1)] ∧
    (childrenElems c2St2 0 = [1] ∧ c2St2.elementRefs = [("a", 1)]) ∧
    (c2St3.elementRefs = [] ∧ childrenElems c2St3 0 = []) ∧
    (c2NestSt.elementRefs = [("p", 2), ("a", 1)] ∧
      childrenElems c2NestSt 0 = [2] ∧ childrenElems c2NestSt 2 = [1]) := by decide

/-!
## C4 scenario: keyless positional reuse with text update

Three keyless span text leaves A, B, C are rendered into a container, then
re-rendered as A, X, C, then re-rendered as A, X, C once more. The builder
allocates elements 1, 3, 5 for the first forest, 7, 9, 11 for the second,
and text node 13 when the reconciler replaces the middle leaf's text.
-/

def c4Cont : St × Nat := createElement {} "div"

def c4B1 : St × Nat := hV2 c4Cont.1 "span" [] [Child.str "A"]

def c4B2 : St × Nat := hV2 c4B1.1 "span" [] [Child.str "B"]

def c4B3 : St × Nat := hV2 c4B2.1 "span" [] [Child.str "C"]

def c4St1 : St :=
  exSt (renderPassV2 20 c4B3.1 0 [DVal.dom c4B1.2, DVal.dom c4B2.2, DVal.dom c4B3.2])

def c4N1 : St × Nat := hV2 c4St1 "span" [] [Child.str "A"]

def c4N2 : St × Nat := hV2 c4N1.1 "span" [] [Child.str "X"]

def c4N3 : St × Nat := hV2 c4N2.1 "span" [] [Child.str "C"]

def c4St2 : St :=
  exSt (renderPassV2 20 c4N3.1 0 [DVal.dom c4N1.2, DVal.dom c4N2.2, DVal.dom c4N3.2])

def c4M1 : St × Nat := hV2 c4St2 "span" [] [Child.str "A"]

def c4M2 : St × Nat := hV2 c4M1.1 "span" [] [Child.str "X"]

def c4M3 : St × Nat := hV2 c4M2.1 "span" [] [Child.str "C"]

def c4St3 : St :=
  exSt (renderPassV2 20 c4M3.1 0 [DVal.dom c4M1.2, DVal.dom c4M2.2, DVal.dom c4M3.2])

/-- C4. Rendering the keyless text leaves A, B, C and re-rendering A, X, C
leaves the container's live children [1, 3, 5] unchanged by reference; the
first and third nodes are bytewise untouched (same node record, same text
child 2 resp. 6), the second is the same reference 3 with its text content
now X (its old text child 4 replaced by the fresh text node 13). Text is
replaced only when it differs: a further identical re-render of A, X, C
leaves all three node records untouched, middle one included. -/
theorem claimC4_positional_reuse :
    childrenElems c4St1 0 = [1, 3, 5] ∧
    childrenElems c4St2 0 = [1, 3, 5] ∧
    (textContentOf c4St2 1 = "A" ∧ textContentOf c4St2 3 = "X" ∧
      textContentOf c4St2 5 = "C") ∧
    c4St2.node 1 = c4St1.node 1 ∧
    c4St2.node 5 = c4St1.node 5 ∧
    (childNodesOf c4St1 3 = [4] ∧ childNodesOf c4St2 3 = [13]) ∧
    (childrenElems c4St3 0 = [1, 3, 5] ∧ c4St3.node 3 = c4St2.node 3 ∧
      c4St3.node 1 = c4St2.node 1 ∧ c4St3.node 5 = c4St2.node 5) := by decide

/-!
## C5 scenario: full event rebind on reuse

A keyed button is rendered with click handler 11, then re-rendered with
click handler 22, and the click event is dispatched on the retained node.
-/

def c5Cont : St × Nat := createElement {} "div"

def c5D1 : St × Nat :=
  hV2 c5Cont.1 "button" [("data-key", PropVal.str "btn"),
    ("onClick", PropVal.handler 11)] [Child.str "click"]

def c5St1 : St := exSt (renderPassV2 20 c5D1.1 0 [DVal.dom c5D1.2])

def c5D2 : St × Nat :=
  hV2 c5St1 "button" [("data-key", PropVal.str "btn"),
    ("onClick", PropVal.handler 22)] [Child.str "click"]

def c5St2 : St := exSt (renderPassV2 20 c5D2.1 0 [DVal.dom c5D2.2])

/-- C5. On reuse of the keyed button, replaceEvents detaches every handler
of the node's current association and attaches every handler of the new
bindings: after the first render a click dispatch on live node 1 invokes
exactly handler 11; after the re-render with handler 22 the same node is
retained, a click dispatch invokes exactly handler 22 and never 11, the
node's whole listener list is the single new pair, and the store records
the new association. -/
theorem claimC5_event_rebind :
    childrenElems c5St1 0 = [1] ∧
    dispatchEvent c5St1 1 "click" = [11] ∧
    childrenElems c5St2 0 = [1] ∧
    dispatchEvent c5St2 1 "click" = [22] ∧
    11 ∉ dispatchEvent c5St2 1 "click" ∧
    (match c5St2.node 1 with
      | some d => d.listeners
      | none => []) = [("click", 22)] ∧
    lookupA c5St2.eventStore 1 = some [("click", 22)] := by decide

/-!
## C6 scenarios: form-property synchronization on reuse

The genuinely unreflected properties (input/textarea value, input checked,
option selected) live outside the attributes, so changing them leaves
attribute equality intact and syncFormProps copies them onto the reused
node. disabled is not such a property: assigning element.disabled in h is
reflected to the disabled content attribute, so a disabled flip makes the
attribute sets unequal and the pass recreates the node instead of reusing
it. select.value and select.selectedIndex are option-dependent accessors:
on a select without options the writes select nothing and the reads are ""
and -1.

Scenarios: a keyed input with constant disabled true and changing
value/checked; a keyed textarea with changing value; a keyed option with
changing selected; a keyed input whose disabled flips false to true (the
counterexample); a keyed childless select whose described value changes.
-/

def c6InD1 : St × Nat :=
  hV2 (createElement {} "div").1 "input" [("data-key", PropVal.str "i"),
    ("value", PropVal.str "foo"), ("checked", PropVal.bool false),
    ("disabled", PropVal.bool true)] []

def c6InSt1 : St := exSt (renderPassV2 20 c6InD1.1 0 [DVal.dom c6InD1.2])

def c6InD2 : St × Nat :=
  hV2 c6InSt1 "input" [("data-key", PropVal.str "i"),
    ("value", PropVal.str "bar"), ("checked", PropVal.bool true),
    ("disabled", PropVal.bool true)] []

def c6InSt2 : St := exSt (renderPassV2 20 c6InD2.1 0 [DVal.dom c6InD2.2])

def c6TaD1 : St × Nat :=
  hV2 (createElement {} "div").1 "textarea" [("data-key", PropVal.str "t"),
    ("value", PropVal.str "one")] []

def c6TaSt1 : St := exSt (renderPassV2 20 c6TaD1.1 0 [DVal.dom c6TaD1.2])

def c6TaD2 : St × Nat :=
  hV2 c6TaSt1 "textarea" [("data-key", PropVal.str "t"),
    ("value", PropVal.str "two")] []

def c6TaSt2 : St := exSt (renderPassV2 20 c6TaD2.1 0 [DVal.dom c6TaD2.2])

def c6OpD1 : St × Nat :=
  hV2 (createElement {} "div").1 "option" [("data-key", PropVal.str "o"),
    ("selected", PropVal.bool false)] []

def c6OpSt1 : St := exSt (renderPassV2 20 c6OpD1.1 0 [DVal.dom c6OpD1.2])

def c6OpD2 : St × Nat :=
  hV2 c6OpSt1 "option" [("data-key", PropVal.str "o"),
    ("selected", PropVal.bool true)] []

def c6OpSt2 : St := exSt (renderPassV2 20 c6OpD2.1 0 [DVal.dom c6OpD2.2])

def c6DisD1 : St × Nat :=
  hV2 (createElement {} "div").1 "input" [("data-key", PropVal.str "d"),
    ("value", PropVal.str "v"), ("disabled", PropVal.bool false)] []

def c6DisSt1 : St := exSt (renderPassV2 20 c6DisD1.1 0 [DVal.dom c6DisD1.2])

def c6DisD2 : St × Nat :=
  hV2 c6DisSt1 "input" [("data-key", PropVal.str "d"),
    ("value", PropVal.str "v"), ("disabled", PropVal.bool true)] []

def c6DisSt2 : St := exSt (renderPassV2 20 c6DisD2.1 0 [DVal.dom c6DisD2.2])

def c6SelD1 : St × Nat :=
  hV2 (createElement {} "div").1 "select" [("data-key", PropVal.str "s"),
    ("value", PropVal.str "v1")] []

def c6SelSt1 : St := exSt (renderPassV2 20 c6SelD1.1 0 [DVal.dom c6SelD1.2])

def c6SelD2 : St × Nat :=
  hV2 c6SelSt1 "select" [("data-key", PropVal.str "s"),
    ("value", PropVal.str "v2")] []

def c6SelSt2 : St := exSt (renderPassV2 20 c6SelD2.1 0 [DVal.dom c6SelD2.2])

/-- C6, counterexample. disabled is a reflected property, not an
attribute-invisible one: flipping it from false to true in the description
adds the disabled content attribute on the new node, the attribute sets of
the old keyed input (node 1) and the new description (node 2) become
unequal, shouldRecreate fires, and the pass replaces the container's child
1 by the fresh node 2 — the element is recreated, not reused and synced. -/
theorem claimC6_counterexample :
    childrenElems c6DisSt1 0 = [1] ∧
    attrsOf c6DisD2.1 1 = [("data-key", "d")] ∧
    attrsOf c6DisD2.1 2 = [("data-key", "d"), ("disabled", "")] ∧
    attributesEqual c6DisD2.1 1 2 = false ∧
    shouldRecreate c6DisD2.1 (some 1) 2 = true ∧
    childrenElems c6DisSt2 0 = [2] := by decide

/-- C6, amended. The genuinely unreflected live properties are synced onto
the reused keyed node: the input keeps node 1 as the container's only child
and carries value "bar" and checked true, the textarea keeps node 1 with
value "two", the option keeps node 1 with selected true; value, checked and
selected never appear among the attributes, which hold only data-key (plus
the constant disabled attribute on the input, equal in both passes, with
getDisabledProp reading true). select.value and select.selectedIndex are
option-dependent: the childless keyed select is reused, yet after the pass
that described value "v2" they read "" and -1 — as does the fresh
description node itself, since the write was inert. -/
theorem claimC6_form_sync :
    (childrenElems c6InSt2 0 = [1] ∧
      (propsOf c6InSt2 1).value = "bar" ∧ (propsOf c6InSt2 1).checked = true ∧
      getDisabledProp c6InSt2 1 = true ∧
      attrsOf c6InSt2 1 = [("data-key", "i"), ("disabled", "")]) ∧
    (childrenElems c6TaSt2 0 = [1] ∧
      (propsOf c6TaSt2 1).value = "two" ∧
      attrsOf c6TaSt2 1 = [("data-key", "t")]) ∧
    (childrenElems c6OpSt2 0 = [1] ∧
      (propsOf c6OpSt2 1).selected = true ∧
      attrsOf c6OpSt2 1 = [("data-key", "o")]) ∧
    (childrenElems c6SelSt2 0 = [1] ∧
      getValueProp c6SelSt2 1 = "" ∧
      getSelectedIndexProp c6SelSt2 1 = -1 ∧
      getValueProp c6SelD2.1 c6SelD2.2 = "" ∧
      attrsOf c6SelSt2 1 = [("data-key", "s")]) := by decide

mutual

theorem flattenChild_isFlat : ∀ (c : Child), ∀ x ∈ flattenChild c, x.isArr = false
  | Child.arr cs => by
      rw [flattenChild]
      exact jsFlatten_isFlat cs
  | Child.node id => by simp [flattenChild, Child.isArr]
  | Child.nullV => by simp [flattenChild, Child.isArr]
  | Child.undef => by simp [flattenChild, Child.isArr]
  | Child.boolV b => by simp [flattenChild, Child.isArr]
  | Child.str s => by simp [flattenChild, Child.isArr]
  | Child.num n => by simp [flattenChild, Child.isArr]

/-- flat(Infinity) leaves no array anywhere in its output: the result is a
flat ordered sequence of leaves and nodes. -/
theorem jsFlatten_isFlat : ∀ (l : List Child), ∀ x ∈ jsFlatten l, x.isArr = false
  | [] => by simp [jsFlatten]
  | c :: rest => by
      rw [jsFlatten]
      intro x hx
      rcases List.mem_append.mp hx with h | h
      · exact flattenChild_isFlat c x h
      · exact jsFlatten_isFlat rest x h

end

/-- A non-array child flattens to itself. -/
theorem flattenChild_of_not_arr (c : Child) (h : c.isArr = false) :
    flattenChild c = [c] := by
  cases c <;> simp_all [flattenChild, Child.isArr]

/-- Flattening a flat list is the identity. -/
theorem jsFlatten_of_flat (l : List Child) (h : ∀ x ∈ l, x.isArr = false) :
    jsFlatten l = l := by
  induction l with
  | nil => rfl
  | cons c rest ih =>
    rw [jsFlatten, flattenChild_of_not_arr c (h c (List.mem_cons_self c rest)),
      ih (fun x hx => h x (List.mem_cons_of_mem c hx))]
    rfl

/-- flat(Infinity) is idempotent: nesting depth is fully eliminated in one
pass. -/
theorem jsFlatten_idem (l : List Child) : jsFlatten (jsFlatten l) = jsFlatten l :=
  jsFlatten_of_flat (jsFlatten l) (jsFlatten_isFlat l)

/-!
## C7 scenarios: child handling of the two builders

A span (element 1) pre-exists; the nanoui-v2 h is then called on a div with
the children null, the span, false, a nested array holding a string and a
doubly nested number, undefined and true. The public/h.js child loop is run
on the same list against a fresh container.
-/

def c7Span : St × Nat := hV2 (createElement {} "div").1 "span" [] []

def c7Kids : List Child :=
  [Child.nullV, Child.node 1, Child.boolV false,
    Child.arr [Child.str "t", Child.arr [Child.num 5]], Child.undef,
    Child.boolV true]

def c7V2 : St × Nat := hV2 c7Span.1 "div" [] c7Kids

/-- The observable shape of one child: its kind and, for a text node, its
content. -/
def childShape (st : St) (c : Nat) : String :=
  if st.isElem c then "elem" ++ toString c else contentOf st c

def c7Pub : St := appendChildrenPub c7Span.1 0 c7Kids

/-- C7 counterexample. The claim says null and boolean child leaves are
dropped by the builder primitive h, producing no node. In the h of
src/nanoui-v2.js (lines 29 to 44) they are not dropped: the null leaf, the
two boolean leaves and the undefined leaf each become a text node holding
their String() form, so the built div has seven childNodes, not three. -/
theorem claimC7_counterexample :
    (childNodesOf c7V2.1 c7V2.2).map (childShape c7V2.1) =
      ["null", "elem1", "false", "t", "5", "undefined", "true"] := by decide

/-- C7 as amended. Children are flattened to unbounded depth in both
builders — the loop runs on flat(Infinity) of the children, whose output
holds no array at any depth and is idempotent. Every non-node leaf that is
kept is coerced to a text node of its String() form. The builders differ on
null, undefined and booleans: public/h.js (lines 54 to 70) skips them,
while the h of src/nanoui-v2.js keeps them as the text nodes
null/false/undefined/true; the pre-existing span node 1 is appended as
itself by both. -/
theorem claimC7_flatten_coerce :
    (∀ l : List Child, ∀ x ∈ jsFlatten l, x.isArr = false) ∧
    (∀ l : List Child, jsFlatten (jsFlatten l) = jsFlatten l) ∧
    (childNodesOf c7V2.1 c7V2.2).map (childShape c7V2.1) =
      ["null", "elem1", "false", "t", "5", "undefined", "true"] ∧
    (childNodesOf c7Pub 0).map (childShape c7Pub) = ["elem1", "t", "5"] :=
  ⟨jsFlatten_isFlat, jsFlatten_idem, by decide, by decide⟩

/-- Is this new-children entry a platform node reference. -/
def DVal.isNode : DVal → Bool
  | .dom _ => true
  | _ => false

/-- The error of a failed pass, none for a successful one. -/
def passError : Except String St → Option String
  | Except.error e => some e
  | Except.ok _ => none

/-- The resolution step never fails: with a candidate either branch
completes, and without one the decision is always recreate. -/
theorem resolveStep_ok (st : St) (parent index newEl : Nat)
    (existingRef : Option Nat) (keyAbsent : Bool) (cur : List String)
    (ret : List Nat) (queue : List (Option Nat × Nat)) :
    ∃ acc, resolveStep st parent index newEl existingRef keyAbsent cur ret queue =
      Except.ok acc := by
  unfold resolveStep
  by_cases h : shouldRecreate st existingRef newEl = true
  · rw [if_pos h]
    exact ⟨_, rfl⟩
  · rw [if_neg h]
    cases existingRef with
    | none => exact absurd (shouldRecreate_none st newEl) h
    | some ex =>
      dsimp only
      split
      · split
        · exact ⟨_, rfl⟩
        · exact ⟨_, rfl⟩
      · exact ⟨_, rfl⟩

/-- A per-child step either succeeds or aborts with the TypeError that
getKey raises on a value without getAttribute. -/
theorem processChild_ok_or_typeError (st : St) (parent : Nat)
    (exC : List Nat) (i : Nat) (v : DVal) (cur : List String) (ret : List Nat)
    (q : List (Option Nat × Nat)) :
    (∃ acc, processChild st parent exC i v cur ret q = Except.ok acc) ∨
    processChild st parent exC i v cur ret q = Except.error "TypeError" := by
  unfold processChild
  split
  · split
    · split
      · split
        · exact Or.inl (resolveStep_ok _ _ _ _ _ _ _ _ _)
        · exact Or.inl (resolveStep_ok _ _ _ _ _ _ _ _ _)
      · exact Or.inr rfl
    · exact Or.inr rfl
  · exact Or.inr rfl

/-- getKey on an entry that is not a node reference throws. -/
theorem processChild_malformed (st : St) (parent : Nat) (exC : List Nat)
    (i : Nat) (v : DVal) (cur : List String) (ret : List Nat)
    (q : List (Option Nat × Nat)) (h : v.isNode = false) :
    processChild st parent exC i v cur ret q = Except.error "TypeError" := by
  cases v with
  | dom id => simp [DVal.isNode] at h
  | nullV => rfl
  | strV s => rfl
  | arrV vs => rfl

/-- The forEach loop of a pass aborts with a TypeError whenever the
new-children list holds a malformed (non-node) entry at any position. -/
theorem processLoop_malformed (parent : Nat) (exC : List Nat) :
    ∀ (l : List DVal) (st : St) (i : Nat) (cur : List String) (ret : List Nat)
      (q : List (Option Nat × Nat)), (∃ v ∈ l, v.isNode = false) →
      processLoop parent exC st i cur ret q l = Except.error "TypeError" := by
  intro l
  induction l with
  | nil => rintro st i cur ret q ⟨v, hv, _⟩; exact absurd hv (List.not_mem_nil v)
  | cons v0 rest ih =>
    rintro st i cur ret q ⟨v, hv, hvn⟩
    rcases processChild_ok_or_typeError st parent exC i v0 cur ret q with ⟨acc, hok⟩ | herr
    · have hv0 : v0.isNode = true := by
        by_contra hc
        rw [processChild_malformed st parent exC i v0 cur ret q
          (Bool.not_eq_true _ ▸ hc)] at hok
        exact Except.noConfusion hok
      have hvrest : v ∈ rest := by
        rcases List.mem_cons.mp hv with rfl | hr
        · rw [hv0] at hvn; exact Bool.noConfusion hvn
        · exact hr
      obtain ⟨st1, cur1, ret1, q1⟩ := acc
      rw [processLoop, hok]
      exact ih st1 (i + 1) cur1 ret1 q1 ⟨v, hvrest, hvn⟩
    · rw [processLoop, herr]

/-- One patchTree invocation on a list with a malformed entry aborts. -/
theorem patchTree_malformed (fuel : Nat) (st : St) (c : Nat) (l : List DVal)
    (h : ∃ v ∈ l, v.isNode = false) :
    patchTreeV2 (fuel + 1) st c l = Except.error "TypeError" := by
  unfold patchTreeV2
  rw [patchJobs, jobChildren,
    processLoop_malformed c (childrenElems st c) l st 0 [] [] [] h]

/-- The render invoker propagates the TypeError to its caller. -/
theorem renderPass_malformed (fuel : Nat) (st : St) (c : Nat) (l : List DVal)
    (h : ∃ v ∈ l, v.isNode = false) :
    renderPassV2 (fuel + 1) st c l = Except.error "TypeError" := by
  unfold renderPassV2
  dsimp only
  rw [patchTree_malformed fuel _ c l h]

/-- The mini-variant normalization flattens an array result to unbounded
depth. -/
theorem miniNormalize_arr (l : List Child) :
    miniNormalize (Child.arr l) = jsFlatten l := rfl

/-- The mini-variant normalization wraps a non-array result. -/
theorem miniNormalize_not_arr (v : Child) (h : v.isArr = false) :
    miniNormalize v = [v] := by
  cases v <;> simp_all [miniNormalize, Child.isArr]

/-- The mini-variant normalization always yields a flat sequence. -/
theorem miniNormalize_isFlat (v : Child) :
    ∀ x ∈ miniNormalize v, x.isArr = false := by
  cases v with
  | arr l => exact jsFlatten_isFlat l
  | node id => simp [miniNormalize, Child.isArr]
  | nullV => simp [miniNormalize, Child.isArr]
  | undef => simp [miniNormalize, Child.isArr]
  | boolV b => simp [miniNormalize, Child.isArr]
  | str s => simp [miniNormalize, Child.isArr]
  | num n => simp [miniNormalize, Child.isArr]

/-!
## C8 scenarios: what the render invoker does with the builder result

A span (element 1) is the description; the v2 invoker is run once on the
flat list holding it and once on a nested array wrapping that list.
-/

def c8D : St × Nat := hV2 (createElement {} "div").1 "span" [] []

def c8Flat : Except String St := renderPassV2 20 c8D.1 0 [DVal.dom 1]

def c8Nested : Except String St :=
  renderPassV2 20 c8D.1 0 [DVal.arrV [DVal.dom 1]]

/-- C8 counterexample. The claim says the invoker normalizes the builder
result by flattening nested arrays to unbounded depth before reconciling.
The invoker of src/nanoui-v2.js (lines 75 to 80) does no such
normalization: the same description wrapped in one extra array level makes
the pass throw a TypeError instead of rendering, while the flat list
renders fine. -/
theorem claimC8_counterexample :
    passError c8Nested = some "TypeError" ∧ passError c8Flat = none := by decide

/-- C8 as amended. The invoker of src/nanoui-v2.js calls the builder and
hands its result to patchTree as-is: a flat element list is reconciled in
one complete synchronous pass (the span becomes the container's child)
while a nested array entry raises a TypeError. The normalization the claim
describes belongs to src/nanoui-mini-v2.js (line 167): there an array
result is flattened to unbounded depth, any other result is wrapped as a
singleton, and the normalized sequence holds no array at any depth. -/
theorem claimC8_render_normalization :
    (∀ l : List Child, miniNormalize (Child.arr l) = jsFlatten l) ∧
    (∀ v : Child, v.isArr = false → miniNormalize v = [v]) ∧
    (∀ v : Child, ∀ x ∈ miniNormalize v, x.isArr = false) ∧
    (passError c8Flat = none ∧ childrenElems (exSt c8Flat) 0 = [1]) ∧
    passError c8Nested = some "TypeError" :=
  ⟨miniNormalize_arr, miniNormalize_not_arr, miniNormalize_isFlat,
    by decide, by decide⟩

/-!
## C9 scenarios: malformed and empty description input

A container holds one rendered span; the invoker is then run on the list
holding a single null entry, and on the empty list.
-/

def c9D : St × Nat := hV2 (createElement {} "div").1 "span" [] [Child.str "x"]

def c9St1 : St := exSt (renderPassV2 20 c9D.1 0 [DVal.dom 1])

def c9Null : Except String St := renderPassV2 20 c9St1 0 [DVal.nullV]

def c9Empty : Except String St := renderPassV2 20 c9St1 0 []

/-- C9 counterexample. The claim says a malformed (null or non-node) entry
at a list position is treated as an empty child list there and no exception
reaches the caller. In src/nanoui-v2.js the pass calls getKey on every
entry (line 189), and getAttribute on null throws: rendering the list that
holds one null entry aborts with a TypeError that propagates to the caller
of the invoker. -/
theorem claimC9_counterexample :
    childrenElems c9St1 0 = [1] ∧ passError c9Null = some "TypeError" := by decide

/-- C9 as amended. A malformed entry — any value at any list position that
is not a platform node reference — makes the whole pass abort with a
TypeError that propagates to the caller of the render invoker, for every
state, container and fuel. An empty description list, by contrast, is
handled: the pass succeeds and removes every live child of the
container. -/
theorem claimC9_malformed_throws :
    (∀ (fuel : Nat) (st : St) (c : Nat) (l : List DVal),
      (∃ v ∈ l, v.isNode = false) →
      renderPassV2 (fuel + 1) st c l = Except.error "TypeError") ∧
    (passError c9Empty = none ∧ childrenElems (exSt c9Empty) 0 = []) :=
  ⟨renderPass_malformed, by decide, by decide⟩

theorem lookupA_setA_self {α : Type} {β : Type} [BEq α] [LawfulBEq α]
    (xs : List (α × β)) (k : α) (v : β) : lookupA (setA xs k v) k = some v := by
  induction xs with
  | nil => simp [setA, lookupA]
  | cons hd tl ih =>
    obtain ⟨a, b⟩ := hd
    by_cases h : a = k
    · subst h
      simp [setA, lookupA]
    · simp [setA, lookupA, beq_iff_eq, h, ih]

theorem lookupA_setA_ne {α : Type} {β : Type} [BEq α] [LawfulBEq α]
    (xs : List (α × β)) (k : α) (v : β) (k' : α) (h : k ≠ k') :
    lookupA (setA xs k v) k' = lookupA xs k' := by
  induction xs with
  | nil => simp [setA, lookupA, beq_iff_eq, h]
  | cons hd tl ih =>
    obtain ⟨a, b⟩ := hd
    by_cases ha : a = k
    · subst ha
      simp [setA, lookupA, beq_iff_eq, h]
    · by_cases ha2 : a = k'
      · subst ha2
        simp [setA, lookupA, beq_iff_eq, ha]
      · simp [setA, lookupA, beq_iff_eq, ha, ha2, ih]

theorem node_setNode_self (st : St) (i : Nat) (d : NodeData) :
    (st.setNode i d).node i = some d := by
  simp [St.node, St.setNode, lookupA_setA_self]

theorem node_setNode_ne (st : St) (i : Nat) (d : NodeData) (j : Nat) (h : i ≠ j) :
    (st.setNode i d).node j = st.node j := by
  simp [St.node, St.setNode, lookupA_setA_ne _ _ _ _ h]

theorem node_updNode_ne (st : St) (i : Nat) (f : NodeData → NodeData) (j : Nat)
    (h : i ≠ j) : (st.updNode i f).node j = st.node j := by
  unfold St.updNode
  cases st.node i with
  | none => rfl
  | some d => exact node_setNode_ne st i (f d) j h

theorem node_updNode_self (st : St) (i : Nat) (f : NodeData → NodeData)
    (d : NodeData) (h : st.node i = some d) :
    (st.updNode i f).node i = some (f d) := by
  unfold St.updNode
  rw [h]
  exact node_setNode_self st i (f d)

theorem isSome_updNode (st : St) (i : Nat) (f : NodeData → NodeData) (j : Nat) :
    ((st.updNode i f).node j).isSome = (st.node j).isSome := by
  unfold St.updNode
  cases hd : st.node i with
  | none => rfl
  | some d =>
    by_cases h : i = j
    · subst h
      rw [node_setNode_self, hd]
      rfl
    · rw [node_setNode_ne st i (f d) j h]

theorem isSome_setAttribute (st : St) (i : Nat) (n v : String) (j : Nat) :
    ((setAttribute st i n v).node j).isSome = (st.node j).isSome := by
  unfold setAttribute
  exact isSome_updNode st i _ j

theorem isSome_addEventListener (st : St) (i : Nat) (ev : String) (hd : Nat)
    (j : Nat) : ((addEventListener st i ev hd).node j).isSome = (st.node j).isSome := by
  unfold addEventListener
  exact isSome_updNode st i _ j

theorem isSome_updProps (st : St) (i : Nat) (f : FormProps → FormProps)
    (j : Nat) : ((updProps st i f).node j).isSome = (st.node j).isSome := by
  unfold updProps
  exact isSome_updNode st i _ j

theorem isSome_removeAttribute (st : St) (i : Nat) (name : String) (j : Nat) :
    ((removeAttribute st i name).node j).isSome = (st.node j).isSome := by
  unfold removeAttribute
  exact isSome_updNode st i _ j

theorem isSome_foldl_updProps (f : FormProps → FormProps) (l : List Nat) :
    ∀ (st : St) (j : Nat),
      (((l.foldl (fun acc o => updProps acc o f) st)).node j).isSome =
        (st.node j).isSome := by
  induction l with
  | nil => intro st j; rfl
  | cons o rest ih =>
    intro st j
    rw [List.foldl_cons, ih, isSome_updProps]

theorem isSome_setSelectValue (st : St) (id : Nat) (v : String) (j : Nat) :
    ((setSelectValue st id v).node j).isSome = (st.node j).isSome := by
  unfold setSelectValue
  dsimp only
  split
  · rw [isSome_updProps, isSome_foldl_updProps]
  · rw [isSome_foldl_updProps]

theorem isSome_setSelectIndex (st : St) (id : Nat) (m : Int) (j : Nat) :
    ((setSelectIndex st id m).node j).isSome = (st.node j).isSome := by
  unfold setSelectIndex
  dsimp only
  split
  · rw [isSome_foldl_updProps]
  · split
    · rw [isSome_updProps, isSome_foldl_updProps]
    · rw [isSome_foldl_updProps]

theorem isSome_setDomProp (st : St) (id : Nat) (k : String) (v : PropVal)
    (j : Nat) : ((setDomProp st id k v).node j).isSome = (st.node j).isSome := by
  unfold setDomProp setDisabledProp
  dsimp only
  repeat' split
  all_goals
    first
      | rfl
      | rw [isSome_updProps]
      | rw [isSome_setAttribute]
      | rw [isSome_removeAttribute]
      | rw [isSome_setSelectValue]
      | rw [isSome_setSelectIndex]

theorem getAttribute_updNode_keep (st : St) (i : Nat) (f : NodeData → NodeData)
    (j : Nat) (n : String) (hf : ∀ d, (f d).attrs = d.attrs) :
    getAttribute (st.updNode i f) j n = getAttribute st j n := by
  by_cases h : i = j
  · subst h
    cases hd : st.node i with
    | none => unfold St.updNode; rw [hd]
    | some d =>
      unfold getAttribute
      rw [node_updNode_self st i f d hd, hd]
      dsimp only
      rw [hf d]
  · unfold getAttribute
    rw [node_updNode_ne st i f j h]

theorem getAttribute_setAttribute_self (st : St) (el : Nat) (n v : String)
    (h : (st.node el).isSome = true) :
    getAttribute (setAttribute st el n v) el n = some v := by
  obtain ⟨d, hd⟩ := Option.isSome_iff_exists.mp h
  unfold setAttribute getAttribute
  rw [node_updNode_self st el _ d hd]
  exact lookupA_setA_self d.attrs n v

theorem getAttribute_setAttribute_ne (st : St) (el : Nat) (n v : String)
    (j : Nat) (n' : String) (h : n ≠ n') :
    getAttribute (setAttribute st el n v) j n' = getAttribute st j n' := by
  by_cases hj : el = j
  · subst hj
    cases hd : st.node el with
    | none => unfold setAttribute St.updNode; rw [hd]
    | some d =>
      unfold setAttribute getAttribute
      rw [node_updNode_self st el _ d hd, hd]
      exact lookupA_setA_ne d.attrs n v n' h
  · unfold setAttribute getAttribute
    rw [node_updNode_ne st el _ j hj]

theorem getAttribute_addEventListener (st : St) (i : Nat) (ev : String)
    (hd : Nat) (j : Nat) (n : String) :
    getAttribute (addEventListener st i ev hd) j n = getAttribute st j n := by
  unfold addEventListener
  refine getAttribute_updNode_keep st i _ j n (fun d => ?_)
  split <;> rfl

theorem getAttribute_updProps (st : St) (i : Nat) (f : FormProps → FormProps)
    (j : Nat) (n : String) :
    getAttribute (updProps st i f) j n = getAttribute st j n := by
  unfold updProps
  exact getAttribute_updNode_keep st i _ j n (fun d => rfl)

theorem lookupA_filter_ne (name n : String) (h : n ≠ name) :
    ∀ (l : List (String × String)),
      lookupA (l.filter (fun nv => nv.1 != name)) n = lookupA l n := by
  intro l
  induction l with
  | nil => rfl
  | cons nv rest ih =>
    obtain ⟨k, v⟩ := nv
    rw [List.filter_cons]
    by_cases hk : k = name
    · rw [if_neg (by simp [hk]), ih]
      have hkn : (k == n) = false := by
        rw [beq_eq_false_iff_ne, hk]
        exact fun he => h he.symm
      conv_rhs => rw [lookupA]
      rw [hkn]
      simp
    · rw [if_pos (by simp [hk])]
      rw [lookupA, lookupA, ih]

theorem getAttribute_removeAttribute_ne (st : St) (i : Nat) (name : String)
    (j : Nat) (n : String) (h : n ≠ name) :
    getAttribute (removeAttribute st i name) j n = getAttribute st j n := by
  unfold removeAttribute
  by_cases hij : i = j
  · subst hij
    cases hd : st.node i with
    | none => unfold St.updNode; rw [hd]
    | some d =>
      unfold getAttribute
      rw [node_updNode_self st i _ d hd, hd]
      exact lookupA_filter_ne name n h d.attrs
  · unfold getAttribute
    rw [node_updNode_ne st i _ j hij]

theorem getAttribute_foldl_updProps (f : FormProps → FormProps) (l : List Nat) :
    ∀ (st : St) (j : Nat) (n : String),
      getAttribute (l.foldl (fun acc o => updProps acc o f) st) j n =
        getAttribute st j n := by
  induction l with
  | nil => intro st j n; rfl
  | cons o rest ih =>
    intro st j n
    rw [List.foldl_cons, ih, getAttribute_updProps]

theorem getAttribute_setSelectValue (st : St) (id : Nat) (v : String)
    (j : Nat) (n : String) :
    getAttribute (setSelectValue st id v) j n = getAttribute st j n := by
  unfold setSelectValue
  dsimp only
  split
  · rw [getAttribute_updProps, getAttribute_foldl_updProps]
  · rw [getAttribute_foldl_updProps]

theorem getAttribute_setSelectIndex (st : St) (id : Nat) (m : Int)
    (j : Nat) (n : String) :
    getAttribute (setSelectIndex st id m) j n = getAttribute st j n := by
  unfold setSelectIndex
  dsimp only
  split
  · rw [getAttribute_foldl_updProps]
  · split
    · rw [getAttribute_updProps, getAttribute_foldl_updProps]
    · rw [getAttribute_foldl_updProps]

theorem getAttribute_setDomProp_keep (st : St) (id : Nat) (k : String)
    (v : PropVal) (j : Nat) (n : String) (hdis : n ≠ "disabled")
    (hval : n ≠ "value") :
    getAttribute (setDomProp st id k v) j n = getAttribute st j n := by
  unfold setDomProp setDisabledProp
  dsimp only
  repeat' split
  all_goals
    first
      | rfl
      | rw [getAttribute_updProps]
      | rw [getAttribute_setAttribute_ne _ _ _ _ _ _ (Ne.symm hdis)]
      | rw [getAttribute_removeAttribute_ne _ _ _ _ _ hdis]
      | rw [getAttribute_setSelectValue]
      | rw [getAttribute_setSelectIndex]
      | rw [getAttribute_setAttribute_ne _ _ _ _ _ _ (Ne.symm hval)]

theorem hPropStep_isSome (tag : String) (el : Nat) (acc : St × List (String × Nat))
    (kv : String × PropVal) (j : Nat) :
    ((hPropStep tag el acc kv).1.node j).isSome = (acc.1.node j).isSome := by
  unfold hPropStep
  by_cases h : startsWithOn kv.1 = true
  · rw [if_pos h]
    cases kv.2 <;>
      simp [isSome_setAttribute, isSome_addEventListener]
  · rw [if_neg h]
    split <;> simp [isSome_setAttribute, isSome_setDomProp]

theorem hPropStep_sets_event (tag : String) (el : Nat)
    (acc : St × List (String × Nat)) (kv : String × PropVal)
    (hon : startsWithOn kv.1 = true) (hs : (acc.1.node el).isSome = true) :
    getAttribute (hPropStep tag el acc kv).1 el "data-has-event" = some "true" := by
  unfold hPropStep
  rw [if_pos hon]
  cases kv.2 with
  | handler hid =>
      exact getAttribute_setAttribute_self _ el _ _
        (by rw [isSome_addEventListener]; exact hs)
  | str s => exact getAttribute_setAttribute_self _ el _ _ hs
  | bool b => exact getAttribute_setAttribute_self _ el _ _ hs
  | num n => exact getAttribute_setAttribute_self _ el _ _ hs

theorem hPropStep_keeps_event (tag : String) (el : Nat)
    (acc : St × List (String × Nat)) (kv : String × PropVal)
    (hk : kv.1 ≠ "data-has-event") (hs : (acc.1.node el).isSome = true)
    (ha : getAttribute acc.1 el "data-has-event" = some "true") :
    getAttribute (hPropStep tag el acc kv).1 el "data-has-event" = some "true" := by
  by_cases hon : startsWithOn kv.1 = true
  · exact hPropStep_sets_event tag el acc kv hon hs
  · unfold hPropStep
    rw [if_neg hon]
    split
    · rw [getAttribute_setDomProp_keep _ _ _ _ _ _ (by decide) (by decide)]
      exact ha
    · rw [getAttribute_setAttribute_ne _ _ _ _ _ _ hk]
      exact ha

/-- After the whole props loop, an element that exists and for which some
on-prefixed key occurs in the props (none of which names data-has-event
directly) carries the synthetic attribute. -/
theorem foldProps_event (tag : String) (el : Nat) :
    ∀ (props : List (String × PropVal)) (acc : St × List (String × Nat)),
      (acc.1.node el).isSome = true →
      (∀ kv ∈ props, kv.1 ≠ "data-has-event") →
      ((∃ kv ∈ props, startsWithOn kv.1 = true) ∨
        getAttribute acc.1 el "data-has-event" = some "true") →
      getAttribute (props.foldl (hPropStep tag el) acc).1 el "data-has-event" =
        some "true" := by
  intro props
  induction props with
  | nil =>
    rintro acc hs hno (⟨kv, hkv, _⟩ | ha)
    · exact absurd hkv (List.not_mem_nil kv)
    · simpa using ha
  | cons kv rest ih =>
    intro acc hs hno hor
    rw [List.foldl_cons]
    refine ih (hPropStep tag el acc kv)
      (by rw [hPropStep_isSome]; exact hs)
      (fun kv2 h2 => hno kv2 (List.mem_cons_of_mem kv h2)) ?_
    by_cases hon : startsWithOn kv.1 = true
    · exact Or.inr (hPropStep_sets_event tag el acc kv hon hs)
    · rcases hor with ⟨kv2, hkv2, hon2⟩ | ha
      · rcases List.mem_cons.mp hkv2 with rfl | hr
        · exact absurd hon2 hon
        · exact Or.inl ⟨kv2, hr, hon2⟩
      · exact Or.inr (hPropStep_keeps_event tag el acc kv
          (hno kv (List.mem_cons_self kv rest)) hs ha)

/-- getAttribute does not depend on the eventStore component. -/
theorem getAttribute_set_eventStore (st : St) (es : List (Nat × List (String × Nat)))
    (j : Nat) (n : String) :
    getAttribute { st with eventStore := es } j n = getAttribute st j n := rfl

/-- The freshly created element is present in the heap. -/
theorem node_createElement_self (st : St) (tag : String) :
    ((createElement st tag).1).node (createElement st tag).2 =
      some { kind := NKind.element tag } := by
  simp [createElement, St.node, lookupA_setA_self]

/-- Every element built by the h of src/nanoui-v2.js from a props list
holding at least one on-prefixed key — and not setting data-has-event by
hand — carries the synthetic attribute data-has-event with value true.
Stated for a childless call; children never touch attributes. -/
theorem hV2_has_event (st : St) (tag : String) (props : List (String × PropVal))
    (hno : ∀ kv ∈ props, kv.1 ≠ "data-has-event")
    (hev : ∃ kv ∈ props, startsWithOn kv.1 = true) :
    getAttribute (hV2 st tag props []).1 (hV2 st tag props []).2
      "data-has-event" = some "true" := by
  unfold hV2
  dsimp only
  show getAttribute { (props.foldl (hPropStep tag (createElement st tag).2)
      ((createElement st tag).1, [])).1 with
    eventStore := _ } (createElement st tag).2 "data-has-event" = some "true"
  rw [getAttribute_set_eventStore]
  exact foldProps_event tag (createElement st tag).2 props
    ((createElement st tag).1, [])
    (by rw [node_createElement_self]; rfl) hno (Or.inl hev)

/-!
## C10 scenario: the synthetic data-has-event attribute

A keyed button (key k, class c, text hi) is rendered without an event
binding, re-rendered with an onClick handler, then re-rendered without it
again.
-/

def c10D1 : St × Nat :=
  hV2 (createElement {} "div").1 "button"
    [("data-key", PropVal.str "k"), ("class", PropVal.str "c")] [Child.str "hi"]

def c10St1 : St := exSt (renderPassV2 20 c10D1.1 0 [DVal.dom 1])

def c10D2 : St × Nat :=
  hV2 c10St1 "button"
    [("data-key", PropVal.str "k"), ("class", PropVal.str "c"),
      ("onClick", PropVal.handler 7)] [Child.str "hi"]

def c10St2 : St := exSt (renderPassV2 20 c10D2.1 0 [DVal.dom 3])

def c10D3 : St × Nat :=
  hV2 c10St2 "button"
    [("data-key", PropVal.str "k"), ("class", PropVal.str "c")] [Child.str "hi"]

def c10St3 : St := exSt (renderPassV2 20 c10D3.1 0 [DVal.dom 5])

/-- C10. Every element built by h from props that contain at least one
on-prefixed key (and do not set data-has-event by hand) carries the
synthetic attribute data-has-event with value true — proved for all states,
tags and props lists. The attribute is an ordinary attribute, so it takes
part in attribute equality: in the keyed-button scenario, the description
with the first event binding (element 3, whose attribute list ends in
data-has-event) compares unequal to the live node 1 in both directions, the
decision is recreate, and the container's child changes from node 1 to node
3; removing the last binding again compares unequal and forces a third
node 5. -/
theorem claimC10_has_event_attr :
    (∀ (st : St) (tag : String) (props : List (String × PropVal)),
      (∀ kv ∈ props, kv.1 ≠ "data-has-event") →
      (∃ kv ∈ props, startsWithOn kv.1 = true) →
      getAttribute (hV2 st tag props []).1 (hV2 st tag props []).2
        "data-has-event" = some "true") ∧
    attrsOf c10D2.1 3 =
      [("data-key", "k"), ("class", "c"), ("data-has-event", "true")] ∧
    (attributesEqual c10D2.1 1 3 = false ∧ attributesEqual c10D2.1 3 1 = false ∧
      shouldRecreate c10D2.1 (some 1) 3 = true) ∧
    (childrenElems c10St1 0 = [1] ∧ childrenElems c10St2 0 = [3]) ∧
    (attributesEqual c10D3.1 3 5 = false ∧
      shouldRecreate c10D3.1 (some 3) 5 = true ∧
      childrenElems c10St3 0 = [5]) :=
  ⟨hV2_has_event, by decide, by decide, by decide, by decide⟩
